import Mathlib

set_option maxRecDepth 10000

/-!
Verification of the DCAP quote platform-identity extractor (`src/parser.rs`).

The development shallowly embeds the extractor: quotes and DER data are
`List Nat` byte strings, and every fallible or aborting step of the Rust
code is made explicit in the result type `RResult`:

* `RResult.ok v` models a normal return;
* `RResult.error e` models a reported, recoverable error from the
  specification's error taxonomy (the source never constructs one — the
  constructors exist so that specification-level claims about reported
  errors can be stated and compared against the source's behavior);
* `RResult.abort msg` models a Rust panic (a failed `unwrap`/`expect`,
  a failed `assert_eq!`, an out-of-bounds index or slice, or the explicit
  panic in the issuer match), i.e. a process abort.

PEM decoding and X.509 certificate parsing are performed by the
`x509_parser` library, outside this repository; they are abstracted as a
decoding function supplied to the pipeline, producing the certificate
view the source consumes (issuer common names, and the unique-extension
lookup result for the SGX-extensions OID).  The DER primitives used by
the extension walk (`Sequence::from_der`, `Oid::from_der`,
`OctetString::from_der` of the asn1-rs library) are modelled concretely
on bytes, since the claims quantify over their behavior.
-/

/-- Byte strings: each element is meant to be a byte value (`< 256`). -/
abbrev Bytes := List Nat

/-- Error taxonomy of the specification (§7).  The source code never
reports any of these: its only failure mode is a panic.  The constructors
are needed to state the specification's claims against the code. -/
inductive ExtractionError where
  | MalformedQuote
  | CertificateDecodeError
  | EmptyChain
  | UnknownIssuer (cn : String)
  | MissingIssuerCN
  | ExtensionNotFound
  | DuplicateExtension
  | FmspcNotFound
  | InvalidFmspcLength
deriving DecidableEq

/-- Result of running a piece of the extractor: a value, a reported
recoverable error (spec taxonomy; never produced by the embedded source),
or a Rust panic / process abort carrying the panic message. -/
inductive RResult (α : Type) where
  | ok (v : α)
  | error (e : ExtractionError)
  | abort (msg : String)
deriving DecidableEq

/-- Modelled from the spec: the `CA` enumeration of the repository's
`chain::pccs::pcs::IPCSDao` module is not under `src/`; the spec's
`CAType` (§3) lists exactly Platform and Processor, matching the two
variants the parser constructs (`CA::PLATFORM`, `CA::PROCESSOR`). -/
inductive CA where
  | PLATFORM
  | PROCESSOR
deriving DecidableEq

/-- Modelled from the spec: DER definite-length decoder, as performed by
the asn1-rs library's `from_der` header parsing (the spec's "the bytes
that entry's DER length claims").  Input is the bytes following the tag
octet; returns the declared content length and the number of length
octets consumed.  The indefinite form (`0x80`) is not a definite length
and is rejected. -/
def derLen : Bytes → Option (Nat × Nat)
  | [] => none
  | b :: bs =>
    if b < 128 then some (b, 1)
    else if b = 128 then none
    else
      let n := b - 128
      if bs.length < n then none
      else some ((bs.take n).foldl (fun acc d => acc * 256 + d) 0, 1 + n)

/-- Modelled from the spec: a DER TLV parser for a fixed expected tag
octet, as performed by `Sequence::from_der` (tag `0x30`),
`Oid::from_der` (tag `0x06`) and `OctetString::from_der` (tag `0x04`).
Returns `(content, rest)`: the value octets the declared length claims,
and the remainder of the buffer after them.  Fails (the library returns
`Err`, which the source unwraps into a panic) on an empty buffer, a tag
mismatch, a malformed length, or a buffer shorter than the declared
length. -/
def derTLV (tag : Nat) (buf : Bytes) : Option (Bytes × Bytes) :=
  match buf with
  | [] => none
  | t :: r0 =>
    if t = tag then
      match derLen r0 with
      | none => none
      | some (len, lc) =>
        let body := r0.drop lc
        if len ≤ body.length then some (body.take len, body.drop len) else none
    else none

/-- Modelled from the spec: base-128 decoding of OID sub-identifiers, as
performed by the asn1-rs library when rendering an OID.  Bytes with the
high bit set continue the current sub-identifier; a byte below `0x80`
completes it. -/
def oidSubIdsAux : Bytes → Nat → List Nat → List Nat
  | [], _, acc => acc.reverse
  | b :: bs, cur, acc =>
    if b < 128 then oidSubIdsAux bs 0 ((cur * 128 + b) :: acc)
    else oidSubIdsAux bs (cur * 128 + b % 128) acc

/-- Modelled from the spec: the arc list of an OID from its DER content
bytes; the first sub-identifier encodes the first two arcs. -/
def oidArcs (bs : Bytes) : List Nat :=
  match oidSubIdsAux bs 0 [] with
  | [] => []
  | v :: rest =>
    if v < 40 then 0 :: v :: rest
    else if v < 80 then 1 :: (v - 40) :: rest
    else 2 :: (v - 80) :: rest

/-- Modelled from the spec: the dotted decimal rendering of an OID from
its DER content bytes, as produced by the asn1-rs `to_id_string` the
source compares against the fixed FMSPC identifier string. -/
def oidToIdString (bs : Bytes) : String :=
  String.intercalate "." ((oidArcs bs).map toString)

/-- Lowercase hexadecimal digit for a value below 16 (`hex::encode`). -/
def hexDigit (n : Nat) : Char :=
  if n < 10 then Char.ofNat (48 + n) else Char.ofNat (87 + n)

/-- Modelled from the spec: `hex::encode` — two lowercase hex digits per
byte, in order ("rendered externally as a lowercase hex string"). -/
def hexEncode (bs : Bytes) : String :=
  String.join (bs.map (fun b => String.mk [hexDigit (b / 16 % 16), hexDigit (b % 16)]))

/-- Processing of the matched FMSPC entry (`parser.rs` lines 76–81):
decode the value after the OID as an OCTET STRING (`unwrap` panics on
failure), `assert_eq!` that nothing remains of the entry, then
`copy_from_slice` into the 6-byte array (panics unless the octet string
is exactly 6 bytes). -/
def fmspcOctetStep (j : Bytes) : RResult Bytes :=
  match derTLV 4 j with
  | none => RResult.abort "OctetString::from_der failed"
  | some (os, k) =>
    if k.length = 0 then
      if os.length = 6 then RResult.ok os
      else RResult.abort "copy_from_slice: length mismatch"
    else RResult.abort "assertion failed: k.len() == 0"

/-- The `while i.len() > 0` scan of `extract_fmspc_from_extension`
(`parser.rs` lines 69–86), with an explicit fuel argument so that the
recursion is structural: each iteration decodes one nested SEQUENCE
(`unwrap` panics on failure) and the OID at the head of its content,
stops at the first FMSPC-OID match, and otherwise continues on the
remainder after the entry.  When the loop exits with the buffer
exhausted, the zero-initialized `fmspc` array is returned.  Each
iteration strictly shrinks the buffer, so any fuel not below the buffer
length makes the fuel bound unreachable (`scanFmspcGo_congr`). -/
def scanFmspcGo : Nat → Bytes → RResult Bytes
  | _, [] => RResult.ok (List.replicate 6 0)
  | 0, _ :: _ => RResult.ok (List.replicate 6 0)
  | fuel + 1, i =>
    match derTLV 48 i with
    | none => RResult.abort "Sequence::from_der failed"
    | some (content, rest) =>
      match derTLV 6 content with
      | none => RResult.abort "Oid::from_der failed"
      | some (oidBytes, afterOid) =>
        if oidToIdString oidBytes = "1.2.840.113741.1.13.1.4" then
          fmspcOctetStep afterOid
        else scanFmspcGo fuel rest

/-- The scan loop run with enough fuel for its whole input. -/
def scanFmspc (i : Bytes) : RResult Bytes :=
  scanFmspcGo i.length i

/-- Modelled from the spec: the outcome of the x509_parser library's
`get_extension_unique` call for the SGX-extensions OID
(1.2.840.113741.1.13.1): `Err` when the extension occurs more than once
(the source's first `unwrap` panics), `Ok(None)` when it is absent (the
second `unwrap` panics), or the extension's raw DER value. -/
inductive ExtLookup where
  | duplicate
  | absent
  | found (value : Bytes)
deriving DecidableEq

/-- Modelled from the spec: the decoded X.509 certificate view consumed
by the source (§3 Data Model): the string values of the Common Name
components of the issuer distinguished name, in order, and the result of
looking up the unique SGX-extensions extension. -/
structure Certificate where
  issuerCNs : List String
  sgxExtension : ExtLookup
deriving DecidableEq

/-- The source's `get_x509_issuer_cn` (`parser.rs` lines 54–58): the
first Common Name of the issuer, with `unwrap` panicking when the issuer
has no Common Name component. -/
def get_x509_issuer_cn (cert : Certificate) : RResult String :=
  match cert.issuerCNs with
  | [] => RResult.abort "called Option::unwrap on a None value"
  | cn :: _ => RResult.ok cn

/-- The source's `extract_fmspc_from_extension` (`parser.rs` lines
60–87): look up the unique SGX-extensions extension (both `unwrap`s
panic on failure), parse its value as a DER SEQUENCE (`unwrap` panics on
failure), then scan the sequence content for the FMSPC entry. -/
def extract_fmspc_from_extension (cert : Certificate) : RResult Bytes :=
  match cert.sgxExtension with
  | ExtLookup.duplicate => RResult.abort "called Result::unwrap on an Err value"
  | ExtLookup.absent => RResult.abort "called Option::unwrap on a None value"
  | ExtLookup.found bytes =>
    match derTLV 48 bytes with
    | none => RResult.abort "Sequence::from_der failed"
    | some (content, _) => scanFmspc content

/-- The `match pck_issuer.as_str()` of `get_pck_fmspc_and_issuer`
(`parser.rs` lines 21–24): the two recognized issuer Common Names map to
the two CA variants, and any other string hits the explicit
`panic!("Unknown PCK Issuer")` (the quoted call is the source text). -/
def classify_pck_issuer (cn : String) : RResult CA :=
  if cn = "Intel SGX PCK Platform CA" then RResult.ok CA.PLATFORM
  else if cn = "Intel SGX PCK Processor CA" then RResult.ok CA.PROCESSOR
  else RResult.abort "Unknown PCK Issuer"

/-- The part of `get_pck_fmspc_and_issuer` operating on the decoded
certificate chain (`parser.rs` lines 16–29): `&cert_chain[0]` panics on
an empty chain; then the leaf's issuer Common Name is read and
classified, the FMSPC is extracted from the leaf's SGX extension, and
the triple `(hex fmspc, ca, issuer cn)` is returned. -/
def process_cert_chain (cert_chain : List Certificate) : RResult (String × CA × String) :=
  match cert_chain with
  | [] => RResult.abort "index out of bounds"
  | pck :: _ =>
    match get_x509_issuer_cn pck with
    | RResult.abort m => RResult.abort m
    | RResult.error e => RResult.error e
    | RResult.ok pck_issuer =>
      match classify_pck_issuer pck_issuer with
      | RResult.abort m => RResult.abort m
      | RResult.error e => RResult.error e
      | RResult.ok pck_ca =>
        match extract_fmspc_from_extension pck with
        | RResult.abort m => RResult.abort m
        | RResult.error e => RResult.error e
        | RResult.ok fmspc_slice =>
          RResult.ok (hexEncode fmspc_slice, pck_ca, pck_issuer)

/-- Modelled from the spec: the outcome of the x509_parser library's
`Pem::iter_from_buffer(..).collect()` on the certification-data region:
either a PEM error (the source's `.expect` panics), or the list of PEM
blocks found, each carrying the result of `parse_x509` on it (`none`
when the block is not well-formed X.509, making the source's per-block
`unwrap` panic). -/
inductive DecodeOutcome where
  | pemError
  | blocks (certs : List (Option Certificate))

/-- The source's `parse_certchain` (`parser.rs` lines 46–51): `unwrap`
every per-block parse result; any failed block panics the whole map. -/
def parse_certchain : List (Option Certificate) → Option (List Certificate)
  | [] => some []
  | none :: _ => none
  | some c :: rest => (parse_certchain rest).map (fun cs => c :: cs)

/-- The fixed offset of the QE authentication-data-size field
(`parser.rs` line 8). -/
def QE_AUTH_DATA_SIZE_OFFSET : Nat := 1012

/-- The source's `get_cert_data_offset` (`parser.rs` lines 32–39): read
the 2-byte little-endian auth-data size at the fixed offset (indexing
panics when the quote is too short) and add the surrounding header
field widths. -/
def get_cert_data_offset (quote : Bytes) : RResult Nat :=
  match quote.get? QE_AUTH_DATA_SIZE_OFFSET, quote.get? (QE_AUTH_DATA_SIZE_OFFSET + 1) with
  | some b0, some b1 =>
    RResult.ok (QE_AUTH_DATA_SIZE_OFFSET + 2 + (b0 + 256 * b1) + 2 + 4)
  | _, _ => RResult.abort "index out of bounds"

/-- The 2-byte little-endian unsigned integer at the fixed constant
offset (`u16::from_le_bytes` of the two bytes there), used to state the
claims about the computed offset. -/
def readLE16 (quote : Bytes) : Nat :=
  (quote.get? QE_AUTH_DATA_SIZE_OFFSET).getD 0 +
    256 * (quote.get? (QE_AUTH_DATA_SIZE_OFFSET + 1)).getD 0

/-- The source's `get_pck_fmspc_and_issuer` (`parser.rs` lines 10–30),
the exported extraction operation: compute the certificate-data offset,
slice the quote from it (`quote[cert_data_offset..]` panics when the
offset exceeds the quote length), decode the PEM chain with the supplied
library decoder, unwrap every block, and process the chain. -/
def get_pck_fmspc_and_issuer (decode : Bytes → DecodeOutcome) (quote : Bytes) :
    RResult (String × CA × String) :=
  match get_cert_data_offset quote with
  | RResult.abort m => RResult.abort m
  | RResult.error e => RResult.error e
  | RResult.ok cert_data_offset =>
    if quote.length < cert_data_offset then
      RResult.abort "range start index out of range for slice"
    else
      match decode (quote.drop cert_data_offset) with
      | DecodeOutcome.pemError => RResult.abort "Failed to parse cert data"
      | DecodeOutcome.blocks bs =>
        match parse_certchain bs with
        | none => RResult.abort "called Result::unwrap on an Err value"
        | some cert_chain => process_cert_chain cert_chain

/-- A quote buffer whose entries are all byte values. -/
def IsByteString (q : Bytes) : Prop := ∀ b ∈ q, b < 256

/-- Library decoder finding zero PEM blocks in any certification data. -/
def decodeEmpty : Bytes → DecodeOutcome := fun _ => DecodeOutcome.blocks []

/-- A quote of 1020 zero bytes: its auth-data size field reads 0, so the
computed certificate-data offset equals its length and the sliced
certification-data region is empty. -/
def quote1020 : Bytes := List.replicate 1020 0

/-- A quote of 1014 zero bytes: just long enough for the size field. -/
def quote1014 : Bytes := List.replicate 1014 0

/-- SGX-extensions value holding a single entry with OID
1.2.840.113741.1.13.1.1 (not the FMSPC identifier) carrying INTEGER 0;
the scan passes it and exhausts the buffer without an FMSPC match. -/
def extNoFmspc : Bytes :=
  [48, 17, 48, 15, 6, 10, 42, 134, 72, 134, 248, 77, 1, 13, 1, 1, 2, 1, 0]

/-- Leaf certificate whose SGX extension holds no FMSPC entry. -/
def certNoFmspc : Certificate :=
  ⟨["Intel SGX PCK Platform CA"], ExtLookup.found extNoFmspc⟩

/-- Library decoder producing the single-certificate chain whose leaf
lacks an FMSPC entry. -/
def decodeNoFmspc : Bytes → DecodeOutcome :=
  fun _ => DecodeOutcome.blocks [some certNoFmspc]

/-- Leaf certificate with an unrecognized issuer Common Name. -/
def certEvil : Certificate := ⟨["Evil CA"], ExtLookup.absent⟩

/-- Library decoder producing the single-certificate chain with the
unrecognized issuer. -/
def decodeEvil : Bytes → DecodeOutcome :=
  fun _ => DecodeOutcome.blocks [some certEvil]

/-- SGX-extensions value whose FMSPC entry carries a 5-byte octet
string. -/
def extFmspc5 : Bytes :=
  [48, 21, 48, 19, 6, 10, 42, 134, 72, 134, 248, 77, 1, 13, 1, 4, 4, 5,
   170, 187, 204, 221, 238]

/-- Leaf certificate whose FMSPC entry is truncated to 5 bytes. -/
def certFmspc5 : Certificate :=
  ⟨["Intel SGX PCK Platform CA"], ExtLookup.found extFmspc5⟩

/-- Nested-entry run (content of the outer SEQUENCE) whose single entry
is an FMSPC entry with a 5-byte octet string. -/
def entriesFmspc5 : Bytes :=
  [48, 19, 6, 10, 42, 134, 72, 134, 248, 77, 1, 13, 1, 4, 4, 5,
   170, 187, 204, 221, 238]

/-- Nested-entry run whose single entry is a well-formed FMSPC entry
with a 6-byte octet string. -/
def entriesFmspc6 : Bytes :=
  [48, 20, 6, 10, 42, 134, 72, 134, 248, 77, 1, 13, 1, 4, 4, 6,
   170, 187, 204, 221, 238, 255]

/-- Nested-entry run whose single FMSPC entry holds a 6-byte octet
string followed by one trailing byte inside the entry. -/
def entriesTrail : Bytes :=
  [48, 21, 6, 10, 42, 134, 72, 134, 248, 77, 1, 13, 1, 4, 4, 6,
   170, 187, 204, 221, 238, 255, 0]

theorem derTLV_rest_lt {tag : Nat} {buf c r : Bytes}
    (h : derTLV tag buf = some (c, r)) : r.length < buf.length := by
  cases buf with
  | nil => simp [derTLV] at h
  | cons t r0 =>
    simp only [derTLV] at h
    by_cases ht : t = tag
    · rw [if_pos ht] at h
      cases hdl : derLen r0 with
      | none => rw [hdl] at h; simp at h
      | some p =>
        obtain ⟨len, lc⟩ := p
        rw [hdl] at h
        simp only at h
        by_cases hle : len ≤ (r0.drop lc).length
        · rw [if_pos hle] at h
          simp only [Option.some.injEq, Prod.mk.injEq] at h
          obtain ⟨-, hr⟩ := h
          subst hr
          simp only [List.length_drop, List.length_cons]
          omega
        · rw [if_neg hle] at h; simp at h
    · rw [if_neg ht] at h; simp at h

theorem derTLV_split {tag : Nat} {buf c r : Bytes}
    (h : derTLV tag buf = some (c, r)) : ∃ hdr : Bytes, buf = hdr ++ c ++ r := by
  cases buf with
  | nil => simp [derTLV] at h
  | cons t r0 =>
    simp only [derTLV] at h
    by_cases ht : t = tag
    · rw [if_pos ht] at h
      cases hdl : derLen r0 with
      | none => rw [hdl] at h; simp at h
      | some p =>
        obtain ⟨len, lc⟩ := p
        rw [hdl] at h
        simp only at h
        by_cases hle : len ≤ (r0.drop lc).length
        · rw [if_pos hle] at h
          simp only [Option.some.injEq, Prod.mk.injEq] at h
          obtain ⟨hc, hr⟩ := h
          refine ⟨t :: r0.take lc, ?_⟩
          rw [← hc, ← hr]
          simp [List.take_append_drop]
        · rw [if_neg hle] at h; simp at h
    · rw [if_neg ht] at h; simp at h

theorem scanFmspcGo_congr : ∀ f1 f2 : Nat, ∀ i : Bytes,
    i.length ≤ f1 → i.length ≤ f2 → scanFmspcGo f1 i = scanFmspcGo f2 i := by
  intro f1
  induction f1 with
  | zero =>
    intro f2 i h1 h2
    have hi : i = [] := List.eq_nil_of_length_eq_zero (Nat.le_zero.mp h1)
    subst hi
    cases f2 <;> rfl
  | succ f ih =>
    intro f2 i h1 h2
    cases i with
    | nil => cases f2 <;> rfl
    | cons b bs =>
      cases f2 with
      | zero => simp at h2
      | succ g =>
        simp only [scanFmspcGo]
        cases hseq : derTLV 48 (b :: bs) with
        | none => rfl
        | some p =>
          obtain ⟨content, rest⟩ := p
          dsimp only
          cases derTLV 6 content with
          | none => rfl
          | some q =>
            obtain ⟨oidBytes, afterOid⟩ := q
            dsimp only
            by_cases hm : oidToIdString oidBytes = "1.2.840.113741.1.13.1.4"
            · rw [if_pos hm, if_pos hm]
            · rw [if_neg hm, if_neg hm]
              have hlt : rest.length < (b :: bs).length := derTLV_rest_lt hseq
              simp only [List.length_cons] at hlt h1 h2
              have hrf : rest.length ≤ f := by omega
              have hrg : rest.length ≤ g := by omega
              rw [ih g rest hrf hrg]

theorem scanFmspcGo_cons_step {fuel b : Nat} {bs content rest oidB afterOid : Bytes}
    (hseq : derTLV 48 (b :: bs) = some (content, rest))
    (hoid : derTLV 6 content = some (oidB, afterOid)) :
    scanFmspcGo (fuel + 1) (b :: bs) =
      if oidToIdString oidB = "1.2.840.113741.1.13.1.4" then fmspcOctetStep afterOid
      else scanFmspcGo fuel rest := by
  simp only [scanFmspcGo]
  rw [hseq]
  dsimp only
  rw [hoid]

theorem scanFmspc_match_step {i content rest oidB afterOid : Bytes}
    (hseq : derTLV 48 i = some (content, rest))
    (hoid : derTLV 6 content = some (oidB, afterOid))
    (hm : oidToIdString oidB = "1.2.840.113741.1.13.1.4") :
    scanFmspc i = fmspcOctetStep afterOid := by
  have hi : i ≠ [] := by
    intro h
    subst h
    simp [derTLV] at hseq
  obtain ⟨b, bs, rfl⟩ := List.exists_cons_of_ne_nil hi
  unfold scanFmspc
  rw [List.length_cons, scanFmspcGo_cons_step hseq hoid, if_pos hm]

theorem scanFmspc_skip_step {i content rest oidB afterOid : Bytes}
    (hseq : derTLV 48 i = some (content, rest))
    (hoid : derTLV 6 content = some (oidB, afterOid))
    (hm : oidToIdString oidB ≠ "1.2.840.113741.1.13.1.4") :
    scanFmspc i = scanFmspc rest := by
  have hi : i ≠ [] := by
    intro h
    subst h
    simp [derTLV] at hseq
  obtain ⟨b, bs, rfl⟩ := List.exists_cons_of_ne_nil hi
  unfold scanFmspc
  rw [List.length_cons, scanFmspcGo_cons_step hseq hoid, if_neg hm]
  have hlt : rest.length < (b :: bs).length := derTLV_rest_lt hseq
  simp only [List.length_cons] at hlt
  exact scanFmspcGo_congr bs.length rest.length rest (by omega) (Nat.le_refl _)

theorem get_cert_data_offset_ok {quote : Bytes}
    (h : QE_AUTH_DATA_SIZE_OFFSET + 2 ≤ quote.length) :
    get_cert_data_offset quote =
      RResult.ok (QE_AUTH_DATA_SIZE_OFFSET + 2 + readLE16 quote + 2 + 4) := by
  have h0 : QE_AUTH_DATA_SIZE_OFFSET < quote.length := by omega
  have h1 : QE_AUTH_DATA_SIZE_OFFSET + 1 < quote.length := by omega
  unfold get_cert_data_offset readLE16
  rw [List.get?_eq_get h0, List.get?_eq_get h1]
  rfl

/-- C1: on a quote whose leaf certificate's SGX extension reaches the
end of its buffer without any entry's OID equalling the FMSPC
identifier, extraction does NOT report `FmspcNotFound`: it returns the
zero-filled six-byte FMSPC (hex string `"000000000000"`).  This
evaluates the code at the failing input, exhibiting the latent defect
the specification flags. -/
theorem c1_missing_fmspc_zero_fill :
    get_pck_fmspc_and_issuer decodeNoFmspc quote1020 =
      RResult.ok ("000000000000", CA.PLATFORM, "Intel SGX PCK Platform CA") := by
  decide

/-- C2 counterexample: on the empty quote (shorter than the constant
offset plus 2), the extraction aborts with an index-out-of-bounds panic
and does not return the error `MalformedQuote` the claim requires. -/
theorem c2_counterexample :
    get_pck_fmspc_and_issuer decodeEmpty [] = RResult.abort "index out of bounds" ∧
    get_pck_fmspc_and_issuer decodeEmpty [] ≠ RResult.error ExtractionError.MalformedQuote := by
  exact ⟨rfl, by decide⟩

/-- C2 (amended): for every quote shorter than the constant offset plus
2 bytes, or whose computed certificate-data offset strictly exceeds the
quote's length, the top-level extraction panics (process abort) — the
bounds are checked, so no out-of-bounds read occurs, but the condition
is a panic, not a reported `MalformedQuote` error. -/
theorem c2_amended (decode : Bytes → DecodeOutcome) (quote : Bytes)
    (h : quote.length < QE_AUTH_DATA_SIZE_OFFSET + 2 ∨
      ∃ off, get_cert_data_offset quote = RResult.ok off ∧ quote.length < off) :
    ∃ m, get_pck_fmspc_and_issuer decode quote = RResult.abort m := by
  rcases h with hshort | ⟨off, hoff, hlt⟩
  · have h13 : quote.get? (QE_AUTH_DATA_SIZE_OFFSET + 1) = none := by
      rw [List.get?_eq_none]
      omega
    have habort : get_cert_data_offset quote = RResult.abort "index out of bounds" := by
      unfold get_cert_data_offset
      rw [h13]
      cases quote.get? QE_AUTH_DATA_SIZE_OFFSET <;> rfl
    refine ⟨"index out of bounds", ?_⟩
    unfold get_pck_fmspc_and_issuer
    rw [habort]
  · refine ⟨"range start index out of range for slice", ?_⟩
    unfold get_pck_fmspc_and_issuer
    rw [hoff]
    dsimp only
    rw [if_pos hlt]

/-- C2 witness: the amended statement applied to the empty quote. -/
theorem c2_amended_witness :
    ∃ m, get_pck_fmspc_and_issuer decodeEmpty [] = RResult.abort m :=
  c2_amended decodeEmpty [] (Or.inl (by decide))

/-- C3 counterexample: on a chain whose leaf issuer Common Name is
"Evil CA", extraction aborts with the `Unknown PCK Issuer` panic and
does not return the recoverable error `UnknownIssuer "Evil CA"` the
claim requires. -/
theorem c3_counterexample :
    get_pck_fmspc_and_issuer decodeEvil quote1020 = RResult.abort "Unknown PCK Issuer" ∧
    get_pck_fmspc_and_issuer decodeEvil quote1020 ≠
      RResult.error (ExtractionError.UnknownIssuer "Evil CA") := by
  exact ⟨by decide, by decide⟩

/-- C3 (amended): issuer classification is a total map on the leaf
certificate's first issuer Common Name — "Intel SGX PCK Platform CA"
yields Platform, "Intel SGX PCK Processor CA" yields Processor, and
every other string causes a process abort (the explicit
`panic!("Unknown PCK Issuer")`), not a recoverable `UnknownIssuer`
error. -/
theorem c3_amended (cn : String) :
    (cn = "Intel SGX PCK Platform CA" → classify_pck_issuer cn = RResult.ok CA.PLATFORM) ∧
    (cn = "Intel SGX PCK Processor CA" → classify_pck_issuer cn = RResult.ok CA.PROCESSOR) ∧
    (cn ≠ "Intel SGX PCK Platform CA" → cn ≠ "Intel SGX PCK Processor CA" →
      classify_pck_issuer cn = RResult.abort "Unknown PCK Issuer") := by
  refine ⟨fun h => ?_, fun h => ?_, fun h1 h2 => ?_⟩
  · unfold classify_pck_issuer
    rw [if_pos h]
  · have h1 : cn ≠ "Intel SGX PCK Platform CA" := by
      subst h
      decide
    unfold classify_pck_issuer
    rw [if_neg h1, if_pos h]
  · unfold classify_pck_issuer
    rw [if_neg h1, if_neg h2]

/-- C3 witness: the amended statement applied to the Common Name
"Evil CA". -/
theorem c3_amended_witness :
    classify_pck_issuer "Evil CA" = RResult.abort "Unknown PCK Issuer" :=
  (c3_amended "Evil CA").2.2 (by decide) (by decide)

/-- C4 counterexample: on a certificate whose FMSPC entry carries a
5-byte octet string, extraction aborts with the `copy_from_slice`
length-mismatch panic and does not return the error
`InvalidFmspcLength` the claim requires. -/
theorem c4_counterexample :
    extract_fmspc_from_extension certFmspc5 = RResult.abort "copy_from_slice: length mismatch" ∧
    extract_fmspc_from_extension certFmspc5 ≠ RResult.error ExtractionError.InvalidFmspcLength := by
  exact ⟨rfl, by decide⟩

/-- C4 (amended): when the FMSPC entry is found (matched OID, octet
string decoded, nothing trailing), a 6-byte octet string is returned as
the FMSPC, and any other length causes a process abort (the
`copy_from_slice` length-mismatch panic) with no partially-filled
result — not a reported `InvalidFmspcLength` error. -/
theorem c4_amended (i content rest oidB afterOid os k : Bytes)
    (hseq : derTLV 48 i = some (content, rest))
    (hoid : derTLV 6 content = some (oidB, afterOid))
    (hm : oidToIdString oidB = "1.2.840.113741.1.13.1.4")
    (hos : derTLV 4 afterOid = some (os, k))
    (hk : k = []) :
    (os.length = 6 → scanFmspc i = RResult.ok os) ∧
    (os.length ≠ 6 → scanFmspc i = RResult.abort "copy_from_slice: length mismatch") := by
  rw [scanFmspc_match_step hseq hoid hm]
  unfold fmspcOctetStep
  rw [hos]
  subst hk
  constructor
  · intro h6
    simp [h6]
  · intro h6
    simp [h6]

/-- C4 witness: the amended statement applied to the concrete run of
entries whose FMSPC entry carries a 5-byte octet string. -/
theorem c4_amended_witness :
    scanFmspc entriesFmspc5 = RResult.abort "copy_from_slice: length mismatch" :=
  (c4_amended entriesFmspc5
      [6, 10, 42, 134, 72, 134, 248, 77, 1, 13, 1, 4, 4, 5, 170, 187, 204, 221, 238] []
      [42, 134, 72, 134, 248, 77, 1, 13, 1, 4]
      [4, 5, 170, 187, 204, 221, 238]
      [170, 187, 204, 221, 238] []
      rfl rfl (by decide) rfl rfl).2 (by decide)

/-- C5: for every quote long enough to contain the auth-data-size
field, the computed start of the certificate chain equals the fixed
constant offset plus 2, plus the 2-byte little-endian value read at
that offset, plus 2, plus 4. -/
theorem c5_offset_formula (quote : Bytes)
    (h : QE_AUTH_DATA_SIZE_OFFSET + 2 ≤ quote.length) :
    get_cert_data_offset quote =
      RResult.ok (QE_AUTH_DATA_SIZE_OFFSET + 2 + readLE16 quote + 2 + 4) :=
  get_cert_data_offset_ok h

/-- C5 witness: the formula evaluated on a 1014-byte all-zero quote. -/
theorem c5_offset_formula_witness :
    get_cert_data_offset quote1014 =
      RResult.ok (QE_AUTH_DATA_SIZE_OFFSET + 2 + readLE16 quote1014 + 2 + 4) :=
  c5_offset_formula quote1014 (by simp [quote1014, QE_AUTH_DATA_SIZE_OFFSET])

/-- C6: the walk is a single forward pass in document order: an
exhausted buffer stops the scan (returning the zero-initialized array);
otherwise one nested SEQUENCE and the OID at the head of its content
are decoded per iteration, exactly the bytes the entry's DER length
claims are consumed (the buffer splits as header ++ content ++ rest),
the scan stops at the first entry whose OID renders as the fixed FMSPC
identifier, and otherwise continues on the remainder — no
backtracking. -/
theorem c6_single_forward_pass :
    scanFmspc [] = RResult.ok (List.replicate 6 0) ∧
    (∀ i content rest oidB afterOid : Bytes,
      derTLV 48 i = some (content, rest) →
      derTLV 6 content = some (oidB, afterOid) →
      (∃ hdr, i = hdr ++ content ++ rest) ∧
      (oidToIdString oidB = "1.2.840.113741.1.13.1.4" →
        scanFmspc i = fmspcOctetStep afterOid) ∧
      (oidToIdString oidB ≠ "1.2.840.113741.1.13.1.4" →
        scanFmspc i = scanFmspc rest)) :=
  ⟨rfl, fun _ _ _ _ _ hseq hoid =>
    ⟨derTLV_split hseq,
     fun hm => scanFmspc_match_step hseq hoid hm,
     fun hm => scanFmspc_skip_step hseq hoid hm⟩⟩

/-- C6 witness: the step characterization applied to a concrete
single-entry run holding a well-formed FMSPC entry. -/
theorem c6_witness :
    scanFmspc entriesFmspc6 =
      fmspcOctetStep [4, 6, 170, 187, 204, 221, 238, 255] :=
  ((c6_single_forward_pass.2 entriesFmspc6
      [6, 10, 42, 134, 72, 134, 248, 77, 1, 13, 1, 4, 4, 6, 170, 187, 204, 221, 238, 255] []
      [42, 134, 72, 134, 248, 77, 1, 13, 1, 4]
      [4, 6, 170, 187, 204, 221, 238, 255]
      rfl rfl).2.1 (by decide))

/-- C7 counterexample: on a certification-data region in which zero PEM
blocks are found, extraction aborts by indexing the empty certificate
chain and does not signal the `EmptyChain` error the claim requires. -/
theorem c7_counterexample :
    get_pck_fmspc_and_issuer decodeEmpty quote1020 = RResult.abort "index out of bounds" ∧
    get_pck_fmspc_and_issuer decodeEmpty quote1020 ≠ RResult.error ExtractionError.EmptyChain := by
  exact ⟨by decide, by decide⟩

/-- C7 (amended): when zero PEM blocks are found in the
certification-data region, extraction panics indexing the empty chain
(`&cert_chain[0]`) rather than signaling `EmptyChain`; when at least
one block is found and the whole chain decodes, the first certificate
is the leaf consumed by issuer classification and extension walking —
the result does not depend on the later certificates. -/
theorem c7_amended :
    (∀ (decode : Bytes → DecodeOutcome) (quote : Bytes) (off : Nat),
      get_cert_data_offset quote = RResult.ok off →
      off ≤ quote.length →
      decode (quote.drop off) = DecodeOutcome.blocks [] →
      get_pck_fmspc_and_issuer decode quote = RResult.abort "index out of bounds") ∧
    (∀ (c : Certificate) (cs cs' : List Certificate),
      process_cert_chain (c :: cs) = process_cert_chain (c :: cs')) := by
  constructor
  · intro decode quote off hoff hle hdec
    unfold get_pck_fmspc_and_issuer
    rw [hoff]
    dsimp only
    rw [if_neg (Nat.not_lt.mpr hle), hdec]
    rfl
  · intro c cs cs'
    rfl

/-- C7 witness: the amended statement applied to the 1020-byte all-zero
quote with a decoder finding zero PEM blocks. -/
theorem c7_amended_witness :
    get_pck_fmspc_and_issuer decodeEmpty quote1020 = RResult.abort "index out of bounds" :=
  c7_amended.1 decodeEmpty quote1020 1020 (by decide) (by simp [quote1020]) rfl

/-- C8: extraction is deterministic — two invocations on the same quote
buffer (with the same certificate decoder) yield identical results;
the embedded pipeline reads and writes no state besides its input. -/
theorem c8_deterministic (decode : Bytes → DecodeOutcome) (quote : Bytes)
    (r1 r2 : RResult (String × CA × String))
    (h1 : get_pck_fmspc_and_issuer decode quote = r1)
    (h2 : get_pck_fmspc_and_issuer decode quote = r2) : r1 = r2 := by
  rw [← h1, ← h2]

/-- C8 witness: determinism applied to the empty quote. -/
theorem c8_deterministic_witness :
    (RResult.abort "index out of bounds" : RResult (String × CA × String)) =
      RResult.abort "index out of bounds" :=
  c8_deterministic decodeEmpty []
    (RResult.abort "index out of bounds") (RResult.abort "index out of bounds") rfl rfl

/-- C9: when the matched FMSPC entry's octet string does not consume
the entire remaining content of its enclosing SEQUENCE (bytes trail
inside the entry), the remainder-is-empty assertion fails, so the scan
aborts and no value is returned. -/
theorem c9_trailing_bytes_abort (i content rest oidB afterOid os k : Bytes)
    (hseq : derTLV 48 i = some (content, rest))
    (hoid : derTLV 6 content = some (oidB, afterOid))
    (hm : oidToIdString oidB = "1.2.840.113741.1.13.1.4")
    (hos : derTLV 4 afterOid = some (os, k))
    (hk : k ≠ []) :
    scanFmspc i = RResult.abort "assertion failed: k.len() == 0" := by
  rw [scanFmspc_match_step hseq hoid hm]
  unfold fmspcOctetStep
  rw [hos]
  dsimp only
  rw [if_neg (by simpa [List.length_eq_zero] using hk)]

/-- C9 witness: the statement applied to a concrete entry run whose
FMSPC entry holds one trailing byte after the octet string. -/
theorem c9_witness :
    scanFmspc entriesTrail = RResult.abort "assertion failed: k.len() == 0" :=
  c9_trailing_bytes_abort entriesTrail
    [6, 10, 42, 134, 72, 134, 248, 77, 1, 13, 1, 4, 4, 6, 170, 187, 204, 221, 238, 255, 0] []
    [42, 134, 72, 134, 248, 77, 1, 13, 1, 4]
    [4, 6, 170, 187, 204, 221, 238, 255, 0]
    [170, 187, 204, 221, 238, 255] [0]
    rfl rfl (by decide) rfl (by decide)

/-- C10: for every byte-valued quote of length at least 1014, the
computed certificate-data offset is 1020 plus the little-endian
auth-data-size value, hence between 1020 and 66555 inclusive — the
first 1020 bytes are never treated as certificate data. -/
theorem c10_offset_bounds (quote : Bytes) (hb : IsByteString quote)
    (h : QE_AUTH_DATA_SIZE_OFFSET + 2 ≤ quote.length) :
    ∃ off, get_cert_data_offset quote = RResult.ok off ∧
      off = 1020 + readLE16 quote ∧ 1020 ≤ off ∧ off ≤ 66555 := by
  have h0 : QE_AUTH_DATA_SIZE_OFFSET < quote.length := by omega
  have h1 : QE_AUTH_DATA_SIZE_OFFSET + 1 < quote.length := by omega
  refine ⟨QE_AUTH_DATA_SIZE_OFFSET + 2 + readLE16 quote + 2 + 4,
    get_cert_data_offset_ok h, ?_, ?_, ?_⟩
  · unfold QE_AUTH_DATA_SIZE_OFFSET
    omega
  · unfold QE_AUTH_DATA_SIZE_OFFSET
    omega
  · have hle : readLE16 quote ≤ 65535 := by
      obtain ⟨b0, hb0⟩ : ∃ b, quote.get? QE_AUTH_DATA_SIZE_OFFSET = some b :=
        ⟨_, List.get?_eq_get h0⟩
      obtain ⟨b1, hb1⟩ : ∃ b, quote.get? (QE_AUTH_DATA_SIZE_OFFSET + 1) = some b :=
        ⟨_, List.get?_eq_get h1⟩
      have hlt0 : b0 < 256 := hb b0 (List.get?_mem hb0)
      have hlt1 : b1 < 256 := hb b1 (List.get?_mem hb1)
      unfold readLE16
      rw [hb0, hb1]
      dsimp only [Option.getD]
      omega
    unfold QE_AUTH_DATA_SIZE_OFFSET
    omega

/-- C10 witness: the bounds applied to the 1014-byte all-zero quote. -/
theorem c10_offset_bounds_witness :
    ∃ off, get_cert_data_offset quote1014 = RResult.ok off ∧
      off = 1020 + readLE16 quote1014 ∧ 1020 ≤ off ∧ off ≤ 66555 :=
  c10_offset_bounds quote1014
    (fun b hb => by
      simp only [quote1014, List.mem_replicate] at hb
      omega)
    (by simp [quote1014, QE_AUTH_DATA_SIZE_OFFSET])
